import Mathlib

/-!
Verification of the Telegram logrus hook (`telegramhook.go`):
a shallow embedding of the single-file Go package `telegramhook` into Lean 4.

Modelling conventions:
* `logrus.Level` (an external collaborator of this repository) is the standard
  logrus enumeration: `PanicLevel = 0, Fatal = 1, Error = 2, Warn = 3,
  Info = 4, Debug = 5, Trace = 6`, with
  `AllLevels = [panic, fatal, error, warn, info, debug, trace]`.
* Field values attached to an entry (`entry.Data`, a `map[string]interface{}`)
  are modelled as an association list `List (String × GoValue)` given in the
  order in which Go's (randomized) map iteration yields the pairs; `GoValue`
  covers the value kinds the claims exercise (strings and ints), and
  `goRender` is `fmt.Sprintf("%+v", v)` restricted to those kinds.
* The two HTTP round trips (`GET <base>/getMe`, `POST <base>/sendMessage`)
  are modelled by passing the outcome of the transport as an explicit
  `TransportResult` argument: either a network-level error (whose message is
  the `*url.Error` rendering `<Op> "<URL>": <cause>` produced by
  `net/http.Client`), a JSON-decode error, or a decoded `apiResponse`.
* `sync.RWMutex`-guarded accessors are modelled as plain field reads/writes
  (single-threaded semantics; the lock itself is out of scope).
* Writes to `os.Stderr` are modelled as an explicit `List String` of the
  diagnostic lines a call emits.
-/

/-- Severity enumeration `logrus.Level` of the framework, with the numeric
values `panic = 0 .. trace = 6` (ascending verbosity, descending severity). -/
inductive Level where
  | panic
  | fatal
  | error
  | warn
  | info
  | debug
  | trace
deriving DecidableEq, Repr, Fintype

/-- Numeric value of a `logrus.Level` (`PanicLevel = 0`, …, `TraceLevel = 6`). -/
def Level.toNat : Level → Nat
  | .panic => 0
  | .fatal => 1
  | .error => 2
  | .warn => 3
  | .info => 4
  | .debug => 5
  | .trace => 6

/-- The framework's level list `logrus.AllLevels`, in enumeration order. -/
def AllLevels : List Level :=
  [.panic, .fatal, .error, .warn, .info, .debug, .trace]

/-- Rank of a severity on the spec's ascending-severity ordinal
`{trace < debug < info < warn < error < fatal < panic}` (§3 of the spec).
This definition follows the spec's words, not the source; it exists to be
compared against the slice behaviour of `Levels`. -/
def ascSeverityRank : Level → Nat
  | .trace => 0
  | .debug => 1
  | .info => 2
  | .warn => 3
  | .error => 4
  | .fatal => 5
  | .panic => 6

/-- A field value carried by a log entry (`interface{}` in Go), restricted to
the kinds exercised by the spec's scenarios. -/
inductive GoValue where
  | str (s : String)
  | int (n : Int)
deriving DecidableEq, Repr

/-- Rendering `fmt.Sprintf("%+v", v)` for the modelled value kinds: a string renders as
itself, an int in decimal. -/
def goRender : GoValue → String
  | .str s => s
  | .int n => toString n

/-- A `logrus.Entry` as consumed by the hook: severity, message text, and the
`Data` field map in iteration order. -/
structure Entry where
  level : Level
  message : String
  data : List (String × GoValue)
deriving DecidableEq, Repr

/-- The `TelegramHook` struct's configuration fields. The `sync.RWMutex` and
the `*http.Client` are represented by the client's timeout setting only. -/
structure HookState where
  appName : String
  authToken : String
  chatId : String
  threadId : String
  level : Level
  async : Bool
  clientTimeout : Int
deriving DecidableEq, Repr

/-- The `apiResponse` struct decoded from the Telegram API
(`ok`, optional `error_code`, optional `description`; the opaque `result`
payload is modelled as always absent, as no claim inspects it). -/
structure ApiResponse where
  ok : Bool
  errorCode : Option Int
  desc : Option String
deriving DecidableEq, Repr

/-- The `apiRequest` struct sent to `sendMessage`. -/
structure ApiReq where
  chatId : String
  threadId : String
  text : String
  parseMode : String
deriving DecidableEq, Repr

/-- Outcome of one HTTP round trip, supplied by the environment:
a network-level failure of the request itself (with the underlying cause's
message), a failure to decode the response body as JSON, or a decoded
`apiResponse`. -/
inductive TransportResult where
  | netErr (cause : String)
  | decodeErr (cause : String)
  | response (r : ApiResponse)
deriving DecidableEq, Repr

/-! ## HTML escaping (`html.EscapeString` / `html.UnescapeString`) -/

/-- Per-character escaping of `html.EscapeString` (Go escapes exactly
`&`, `'`, `<`, `>`, `"`, in a single left-to-right pass). -/
def escChar (c : Char) : List Char :=
  if c = '&' then ['&', 'a', 'm', 'p', ';']
  else if c = '\'' then ['&', '#', '3', '9', ';']
  else if c = '<' then ['&', 'l', 't', ';']
  else if c = '>' then ['&', 'g', 't', ';']
  else if c = '"' then ['&', '#', '3', '4', ';']
  else [c]

/-- Model of `html.EscapeString` over a character list. -/
def escList : List Char → List Char
  | [] => []
  | c :: rest => escChar c ++ escList rest

/-- Model of `html.EscapeString` on strings. -/
def escapeString (s : String) : String :=
  ⟨escList s.data⟩

/-- Model of `html.UnescapeString`, restricted to the five entities that
`html.EscapeString` emits (on escaped output no other entity can occur, since
every `&` of the input is itself escaped); unrecognized text is passed
through unchanged, matching Go's behaviour. Single pass, no rescanning. -/
def unescList : List Char → List Char
  | [] => []
  | c :: rest =>
    if c = '&' then
      match rest with
      | 'a' :: 'm' :: 'p' :: ';' :: r => '&' :: unescList r
      | '#' :: '3' :: '9' :: ';' :: r => '\'' :: unescList r
      | 'l' :: 't' :: ';' :: r => '<' :: unescList r
      | 'g' :: 't' :: ';' :: r => '>' :: unescList r
      | '#' :: '3' :: '4' :: ';' :: r => '"' :: unescList r
      | r => c :: unescList r
    else c :: unescList rest

/-- Model of `html.UnescapeString` on strings. -/
def unescape (s : String) : String :=
  ⟨unescList s.data⟩

/-! ## Message formatting (`createMessage`) -/

/-- The severity-to-label `switch` at the top of `createMessage`; `trace`
has no case, so `msg` keeps its zero value `""`. -/
def levelLabel : Level → String
  | .panic => "<b>PANIC</b>"
  | .fatal => "<b>FATAL</b>"
  | .error => "<b>ERROR</b>"
  | .warn => "<b>WARNING</b>"
  | .info => "<b>INFO</b>"
  | .debug => "<b>DEBUG</b>"
  | .trace => ""

/-- One line of the `<pre>` block:
`html.EscapeString(fmt.Sprintf("\t%s: %+v", k, v))`. -/
def fieldLine (k : String) (v : GoValue) : String :=
  escapeString ("\t" ++ k ++ ": " ++ goRender v)

/-- The loop `for k, v := range entry.Data`, folding the escaped field lines
onto `acc`, each joined with `"\n"`. -/
def blockFold (acc : String) (data : List (String × GoValue)) : String :=
  data.foldl (fun a kv => a ++ "\n" ++ fieldLine kv.1 kv.2) acc

/-- Model of `createMessage`: label, `"@" + appName`, `" - " + message`, then, when
the entry carries fields, the `<pre>` block of escaped `key: value` lines. -/
def createMessage (appName : String) (e : Entry) : String :=
  let m1 := levelLabel e.level ++ "@" ++ appName
  let m2 := m1 ++ " - " ++ e.message
  if e.data.isEmpty then m2
  else blockFold (m2 ++ "\n" ++ "<pre>") e.data ++ "\n" ++ "</pre>"

/-! ## Remote calls (`verifyToken`, `sendMessage`) and `Fire` -/

/-- Model of `ApiEndpoint()`: `fmt.Sprintf("https://api.telegram.org/bot%s", authToken)`. -/
def apiEndpoint (h : HookState) : String :=
  "https://api.telegram.org/bot" ++ h.authToken

/-- Go's `%q` rendering of a URL (as used by `*url.Error`), for URLs without
characters that need escaping. -/
def quoteStr (s : String) : String :=
  "\"" ++ s ++ "\""

/-- Model of `url.JoinPath(base, seg)` for a well-formed base URL with no trailing
slash and a plain path segment. -/
def joinPath (base seg : String) : String :=
  base ++ "/" ++ seg

/-!
Model of `fmt`'s format-string processing with ZERO operands, as performed by
the `fmt.Errorf(msg)` call on `sendMessage`'s `ok = false` path (the composed
message is passed as the format string with no arguments, so any `%`-verb
inside the remote-supplied description is processed): literal text is copied;
each `%` directive parses flags, an optional `[n]` argument index, width
(`*` emits `%!(BADWIDTH)`), precision (`.`, with `.*` emitting
`%!(BADPREC)`); a `%%` emits `%`; a format ending inside a directive emits
`%!(NOVERB)`; otherwise the verb `v` emits `%!v(BADINDEX)` after a `[n]`
index (never satisfiable with zero arguments) or `%!v(MISSING)`. Mirrors
`fmt.(*pp).doPrintf`, `parsenum`, `parseArgNumber` and `(*pp).argNumber` of
Go's standard library for an empty argument list.
-/

/-- Flag characters accepted after `%`. -/
def isFmtFlag (c : Char) : Bool :=
  c = '#' || c = '0' || c = '+' || c = '-' || c = ' '

/-- The `simpleFormat` flags loop (the fast path needs an argument, so with
zero arguments it never fires and the loop stops at the first non-flag). -/
def skipFlags : List Char → List Char
  | [] => []
  | c :: rest => if isFmtFlag c then skipFlags rest else c :: rest

/-- Go's `parsenum`: consume leading digits; the result is
(at least one digit seen, rest). When the accumulated value exceeds `1e6`
with another digit pending (`tooLarge`), Go jumps to the end of the format,
modelled by an empty rest. -/
def parsenumGo (num : Nat) (isnum : Bool) : List Char → Bool × List Char
  | [] => (isnum, [])
  | c :: rest =>
    if c.isDigit then
      if num > 1000000 then (false, [])
      else parsenumGo (num * 10 + (c.toNat - 48)) true rest
    else (isnum, c :: rest)

/-- Go's `(*pp).argNumber`/`parseArgNumber` with zero arguments: on `[`,
`goodArgNum` always becomes false (an in-range index is impossible), the
bracketed run is consumed through the first `]` (just the `[` when the
remainder is shorter than `n]` or has no `]`), and `afterIndex` is true
exactly for a syntactically valid `[n]`. Returns
(sets `goodArgNum = false`, `afterIndex`, rest). -/
def argNumberGo (l : List Char) : Bool × Bool × List Char :=
  match l with
  | c :: r =>
    if c = '[' then
      if r.length < 2 then (true, false, r)
      else
        match List.findIdx? (fun x => x = ']') r with
        | none => (true, false, r)
        | some j =>
          let p := parsenumGo 0 false (r.take j)
          (true, p.1 && decide (p.2 = []), r.drop (j + 1))
    else (false, false, l)
  | [] => (false, false, [])

/-- Width parsing: a `*` width consumes an argument, which is missing, so
`%!(BADWIDTH)` is emitted; otherwise digits are consumed. Returns
(emitted output, rest, `afterIndex`). -/
def fmtWidth (l : List Char) (after : Bool) : List Char × List Char × Bool :=
  match l with
  | '*' :: r => ("%!(BADWIDTH)".data, r, false)
  | l2 => ([], (parsenumGo 0 false l2).2, after)

/-- Precision parsing: a `.` (with at least one character following, per
`i+1 < end`) is followed by an optional `[n]` index, then either a `*`
(emitting `%!(BADPREC)`) or digits. Returns
(emitted output, rest, `afterIndex`, sets `goodArgNum = false`). -/
def fmtPrec (l : List Char) (after : Bool) : List Char × List Char × Bool × Bool :=
  match l with
  | '.' :: c :: r =>
    let a2 := argNumberGo (c :: r)
    (match a2.2.2 with
     | '*' :: rr => ("%!(BADPREC)".data, rr, false, a2.1)
     | lp => ([], (parsenumGo 0 false lp).2, a2.2.1, a2.1))
  | l3 => ([], l3, after, false)

/-- The verb step: an exhausted format emits `%!(NOVERB)`; `%` emits a
literal percent; otherwise `%!v(BADINDEX)` when `goodArgNum` was cleared,
else `%!v(MISSING)` (no argument is ever available). -/
def fmtVerb (l : List Char) (w p : List Char) (bad : Bool) : List Char × List Char :=
  match l with
  | [] => (w ++ p ++ "%!(NOVERB)".data, [])
  | v :: r =>
    if v = '%' then (w ++ p ++ ['%'], r)
    else if bad then (w ++ p ++ ('%' :: '!' :: v :: "(BADINDEX)".data), r)
    else (w ++ p ++ ('%' :: '!' :: v :: "(MISSING)".data), r)

/-- One `%` directive (the `%` itself already consumed), zero arguments:
flags, argument index, width, precision, trailing argument index (skipped
when a valid index was just parsed), then the verb. Returns
(emitted output, rest of the format). -/
def fmtDirective (l0 : List Char) : List Char × List Char :=
  let a1 := argNumberGo (skipFlags l0)
  let w := fmtWidth a1.2.2 a1.2.1
  let p := fmtPrec w.2.1 w.2.2
  let a3 := if p.2.2.1 then (false, false, p.2.1) else argNumberGo p.2.1
  fmtVerb a3.2.2 w.1 p.1 (a1.1 || p.2.2.2 || a3.1)

/-- The `doPrintf` loop with zero arguments, fuelled: each step consumes at
least one character (a literal, or the `%` opening a directive —
`fmtDirective` only ever returns a suffix of its input, see
`fmtDirective_suffix`), so fuel `length + 1` never runs out. -/
def doPrintfFuel : Nat → List Char → List Char
  | 0, _ => []
  | _ + 1, [] => []
  | fuel + 1, c :: rest =>
    if c = '%' then
      (fmtDirective rest).1 ++ doPrintfFuel fuel (fmtDirective rest).2
    else c :: doPrintfFuel fuel rest

/-- Go's format processing of `l` with an empty argument list. -/
def doPrintfNoArgs (l : List Char) : List Char :=
  doPrintfFuel (l.length + 1) l

/-- The error text of `fmt.Errorf(s)` — `s` interpreted as a format string
with no operands. -/
def fmtErrorf (s : String) : String :=
  ⟨doPrintfNoArgs s.data⟩

/-- The shared `if !apiRes.Ok` message of `verifyToken` and `sendMessage`:
`"Received error response from Telegram API"`, extended with
`" (error code %d)"` and `": %s"` when the optional fields are present. -/
def respMsg (r : ApiResponse) : String :=
  "Received error response from Telegram API"
    ++ (match r.errorCode with
        | some c => " (error code " ++ toString c ++ ")"
        | none => "")
    ++ (match r.desc with
        | some d => ": " ++ d
        | none => "")

/-- Model of `json.MarshalIndent(apiRes, "", "\t")` for the modelled `apiResponse`
(`result` always nil; description strings assumed to need no JSON escaping). -/
def marshalIndent (r : ApiResponse) : String :=
  "\x7b\n\t" ++ quoteStr "ok" ++ ": " ++ (if r.ok then "true" else "false")
    ++ (match r.errorCode with
        | some c => ",\n\t" ++ quoteStr "error_code" ++ ": " ++ toString c
        | none => "")
    ++ (match r.desc with
        | some d => ",\n\t" ++ quoteStr "description" ++ ": " ++ quoteStr d
        | none => "")
    ++ "\n\x7d"

/-- Model of `verifyToken`: GET `<base>/getMe`; a transport error propagates as a
`*url.Error` (whose text embeds the full request URL), a decode error
propagates as-is, and an `ok = false` response becomes the composed message
followed by the indented JSON dump of the response (built with the CONSTANT
format `"%s\n%s"` whose operands are inserted verbatim — unlike
`sendMessage`, no verb processing touches the message here). -/
def verifyTokenModel (h : HookState) (tr : TransportResult) : Except String Unit :=
  match tr with
  | .netErr cause =>
      .error ("Get " ++ quoteStr (joinPath (apiEndpoint h) "getMe") ++ ": " ++ cause)
  | .decodeErr cause => .error cause
  | .response r =>
      if r.ok then .ok ()
      else .error (respMsg r ++ "\n" ++ marshalIndent r)

/-- Model of `sendMessage`: builds the `apiRequest` envelope, POSTs it to
`<base>/sendMessage`, and interprets the response. Returns the envelope,
the call's result, and the diagnostics it writes to stderr (a network-level
POST failure is both written to stderr and returned; an `ok = false`
response is only returned). Note the `ok = false` error is built by
`fmt.Errorf(msg)` — the composed message is the FORMAT STRING with no
operands, so it goes through `fmtErrorf` and `%`-verbs inside a
remote-supplied description get mangled. -/
def sendMessageModel (h : HookState) (msg : String) (tr : TransportResult) :
    ApiReq × Except String Unit × List String :=
  let req : ApiReq := ⟨h.chatId, h.threadId, msg, "HTML"⟩
  match tr with
  | .netErr cause =>
      let e := "Post " ++ quoteStr (joinPath (apiEndpoint h) "sendMessage") ++ ": " ++ cause
      (req, .error e, ["Encountered error when issuing request to Telegram API, " ++ e])
  | .decodeErr cause => (req, .error cause, [])
  | .response r =>
      if r.ok then (req, .ok (), [])
      else (req, .error (fmtErrorf (respMsg r)), [])

/-- Model of `Fire`: formats the entry; in async mode launches `sendMessage` on a
detached goroutine and returns `nil` at once (the detached call's effects are
not part of `Fire`'s own result or stderr output); in sync mode calls
`sendMessage` inline and, on failure, writes `"Unable to send message, %v"`
to stderr and returns the error. The first component is the returned error
(`none` = `nil`), the second the stderr lines `Fire` itself emits. -/
def FireModel (h : HookState) (e : Entry) (tr : TransportResult) :
    Option String × List String :=
  let msg := createMessage h.appName e
  if h.async then (none, [])
  else
    match sendMessageModel h msg tr with
    | (_, .error err, w) => (some err, w ++ ["Unable to send message, " ++ err])
    | (_, .ok _, w) => (none, w)

/-- Model of `Levels()`: the slice `logrus.AllLevels[:h.level+1]`. -/
def levelsFor (threshold : Level) : List Level :=
  AllLevels.take (threshold.toNat + 1)

/-- Hook method `Levels()`. -/
def Levels (h : HookState) : List Level :=
  levelsFor h.level

/-! ## Construction (`NewTelegramHookWithClient` and options) -/

/-- An `Option` (functional configuration option) for the hook. -/
def HookOpt := HookState → HookState

/-- Model of `WithAsync`. -/
def withAsync (b : Bool) : HookOpt := fun h => { h with async := b }

/-- Model of `WithLevel`. -/
def withLevel (l : Level) : HookOpt := fun h => { h with level := l }

/-- Model of `WithTimeout` (only positive timeouts are applied). -/
def withTimeout (t : Int) : HookOpt :=
  fun h => if t > 0 then { h with clientTimeout := t } else h

/-- Model of `NewTelegramHookWithClient`: builds the hook with defaults
`level = ErrorLevel`, `async = false`, applies the options in order, then
runs `verifyToken` (whose GET outcome is the `tr` argument); any validation
error aborts construction and no hook is produced. -/
def newTelegramHookWithClient (appName authToken chatId threadId : String)
    (opts : List HookOpt) (tr : TransportResult) : Except String HookState :=
  let h0 : HookState :=
    { appName := appName, authToken := authToken, chatId := chatId,
      threadId := threadId, level := .error, async := false, clientTimeout := 0 }
  let h := opts.foldl (fun acc o => o acc) h0
  match verifyTokenModel h tr with
  | .error e => .error e
  | .ok _ => .ok h

/-- Substring containment: `sub` occurs contiguously inside `s`. -/
def ContainsStr (s sub : String) : Prop :=
  ∃ p q, s = p ++ sub ++ q

/-! ## Helper lemmas: strings -/

theorem str_append_assoc (a b c : String) : (a ++ b) ++ c = a ++ (b ++ c) := by
  apply String.ext
  simp [String.data_append, List.append_assoc]

theorem str_append_empty (a : String) : a ++ "" = a := by
  apply String.ext
  simp [String.data_append]

theorem str_empty_append (a : String) : "" ++ a = a := by
  apply String.ext
  simp [String.data_append]

theorem containsStr_append_right {s sub : String} (x : String)
    (h : ContainsStr s sub) : ContainsStr (s ++ x) sub := by
  obtain ⟨p, q, rfl⟩ := h
  exact ⟨p, q ++ x, by rw [str_append_assoc, str_append_assoc]⟩

theorem containsStr_append_left {s sub : String} (x : String)
    (h : ContainsStr s sub) : ContainsStr (x ++ s) sub := by
  obtain ⟨p, q, rfl⟩ := h
  exact ⟨x ++ p, q, by rw [str_append_assoc, str_append_assoc, str_append_assoc]⟩

theorem containsStr_self (s : String) : ContainsStr s s :=
  ⟨"", "", by rw [str_empty_append, str_append_empty]⟩

/-! ## Helper lemmas: escaping round trip -/

theorem unesc_amp (l : List Char) :
    unescList ('&' :: 'a' :: 'm' :: 'p' :: ';' :: l) = '&' :: unescList l := rfl

theorem unesc_39 (l : List Char) :
    unescList ('&' :: '#' :: '3' :: '9' :: ';' :: l) = '\'' :: unescList l := rfl

theorem unesc_lt (l : List Char) :
    unescList ('&' :: 'l' :: 't' :: ';' :: l) = '<' :: unescList l := rfl

theorem unesc_gt (l : List Char) :
    unescList ('&' :: 'g' :: 't' :: ';' :: l) = '>' :: unescList l := rfl

theorem unesc_34 (l : List Char) :
    unescList ('&' :: '#' :: '3' :: '4' :: ';' :: l) = '"' :: unescList l := rfl

theorem unescList_cons_ne (c : Char) (h : c ≠ '&') (l : List Char) :
    unescList (c :: l) = c :: unescList l := by
  conv_lhs => rw [unescList.eq_def]
  dsimp only
  rw [if_neg h]

/-- The escaping performed on every field line is inverted exactly by
`unescList`: character-level round trip. -/
theorem unescList_escList (l : List Char) : unescList (escList l) = l := by
  induction l with
  | nil => rfl
  | cons c rest ih =>
    show unescList (escChar c ++ escList rest) = c :: rest
    by_cases h1 : c = '&'
    · subst h1
      have he : escChar '&' = ['&', 'a', 'm', 'p', ';'] := by simp [escChar]
      rw [he]
      show unescList ('&' :: 'a' :: 'm' :: 'p' :: ';' :: escList rest) = _
      rw [unesc_amp, ih]
    by_cases h2 : c = '\''
    · subst h2
      have he : escChar '\'' = ['&', '#', '3', '9', ';'] := by simp [escChar]
      rw [he]
      show unescList ('&' :: '#' :: '3' :: '9' :: ';' :: escList rest) = _
      rw [unesc_39, ih]
    by_cases h3 : c = '<'
    · subst h3
      have he : escChar '<' = ['&', 'l', 't', ';'] := by simp [escChar]
      rw [he]
      show unescList ('&' :: 'l' :: 't' :: ';' :: escList rest) = _
      rw [unesc_lt, ih]
    by_cases h4 : c = '>'
    · subst h4
      have he : escChar '>' = ['&', 'g', 't', ';'] := by simp [escChar]
      rw [he]
      show unescList ('&' :: 'g' :: 't' :: ';' :: escList rest) = _
      rw [unesc_gt, ih]
    by_cases h5 : c = '"'
    · subst h5
      have he : escChar '"' = ['&', '#', '3', '4', ';'] := by simp [escChar]
      rw [he]
      show unescList ('&' :: '#' :: '3' :: '4' :: ';' :: escList rest) = _
      rw [unesc_34, ih]
    · have he : escChar c = [c] := by simp [escChar, h1, h2, h3, h4, h5]
      rw [he]
      show unescList (c :: escList rest) = _
      rw [unescList_cons_ne c h1, ih]

/-- String-level round trip of the field-value escaping. -/
theorem unescape_escapeString (s : String) : unescape (escapeString s) = s := by
  apply String.ext
  show unescList (escList s.data) = s.data
  exact unescList_escList s.data

/-- Escaping a character never emits a raw `<` or `>`. -/
theorem escChar_no_raw (c x : Char) (hx : x = '<' ∨ x = '>') : x ∉ escChar c := by
  unfold escChar
  split_ifs with h1 h2 h3 h4 h5
  · rcases hx with rfl | rfl <;> decide
  · rcases hx with rfl | rfl <;> decide
  · rcases hx with rfl | rfl <;> decide
  · rcases hx with rfl | rfl <;> decide
  · rcases hx with rfl | rfl <;> decide
  · rcases hx with rfl | rfl
    · simp only [List.mem_singleton]
      exact fun hc => h3 hc.symm
    · simp only [List.mem_singleton]
      exact fun hc => h4 hc.symm

/-- Escaped output contains no raw `<` or `>` character. -/
theorem escList_no_raw (l : List Char) (x : Char) (hx : x = '<' ∨ x = '>') :
    x ∉ escList l := by
  induction l with
  | nil => simp [escList]
  | cons c rest ih =>
    show x ∉ escChar c ++ escList rest
    rw [List.mem_append]
    rintro (h | h)
    · exact escChar_no_raw c x hx h
    · exact ih h

/-! ## Helper lemmas: shape of `createMessage` -/

/-- Folding field lines onto `acc` only ever appends to `acc`. -/
theorem blockFold_prefix (data : List (String × GoValue)) (acc : String) :
    ∃ t, blockFold acc data = acc ++ t := by
  induction data generalizing acc with
  | nil => exact ⟨"", (str_append_empty acc).symm⟩
  | cons kv rest ih =>
    obtain ⟨t, ht⟩ := ih (acc ++ "\n" ++ fieldLine kv.1 kv.2)
    refine ⟨"\n" ++ fieldLine kv.1 kv.2 ++ t, ?_⟩
    show blockFold (acc ++ "\n" ++ fieldLine kv.1 kv.2) rest = _
    rw [ht]
    simp only [str_append_assoc]

/-- Every field of the entry contributes its escaped line to the block. -/
theorem blockFold_contains (data : List (String × GoValue)) (acc k : String)
    (v : GoValue) (h : (k, v) ∈ data) :
    ContainsStr (blockFold acc data) (fieldLine k v) := by
  induction data generalizing acc with
  | nil => cases h
  | cons kv rest ih =>
    rcases List.mem_cons.mp h with heq | hmem
    · obtain ⟨t, ht⟩ := blockFold_prefix rest (acc ++ "\n" ++ fieldLine kv.1 kv.2)
      refine ⟨acc ++ "\n", t, ?_⟩
      show blockFold (acc ++ "\n" ++ fieldLine kv.1 kv.2) rest = _
      rw [ht, ← heq]
    · exact ih (acc ++ "\n" ++ fieldLine kv.1 kv.2) hmem

/-- Output of `createMessage` always begins with
`<label>@<appName> - <message>`; whatever follows is the field block. -/
theorem createMessage_prefix (appName : String) (e : Entry) :
    ∃ rest, createMessage appName e
      = levelLabel e.level ++ "@" ++ appName ++ " - " ++ e.message ++ rest := by
  by_cases hd : e.data.isEmpty
  · refine ⟨"", ?_⟩
    simp only [createMessage, if_pos hd]
    exact (str_append_empty _).symm
  · obtain ⟨t, ht⟩ := blockFold_prefix e.data
      (levelLabel e.level ++ "@" ++ appName ++ " - " ++ e.message ++ "\n" ++ "<pre>")
    refine ⟨"\n" ++ "<pre>" ++ t ++ "\n" ++ "</pre>", ?_⟩
    simp only [createMessage, if_neg hd]
    rw [ht]
    simp only [str_append_assoc]

/-- When the entry carries fields, every field's escaped line occurs in the
message produced by `createMessage`. -/
theorem createMessage_contains_fieldLine (appName : String) (e : Entry)
    (k : String) (v : GoValue) (h : (k, v) ∈ e.data) :
    ContainsStr (createMessage appName e) (fieldLine k v) := by
  have hne : e.data ≠ [] := List.ne_nil_of_mem h
  have hd : ¬e.data.isEmpty := by simp [List.isEmpty_iff, hne]
  simp only [createMessage, if_neg hd]
  exact containsStr_append_right "</pre>"
    (containsStr_append_right "\n" (blockFold_contains e.data _ k v h))

/-! ## Helper lemmas: error-message composition -/

theorem respMsg_contains_code (r : ApiResponse) (c : Int)
    (hc : r.errorCode = some c) :
    ContainsStr (respMsg r) (" (error code " ++ toString c ++ ")") := by
  refine ⟨"Received error response from Telegram API",
    (match r.desc with | some d => ": " ++ d | none => ""), ?_⟩
  simp [respMsg, hc]

theorem respMsg_contains_desc (r : ApiResponse) (d : String)
    (hd : r.desc = some d) : ContainsStr (respMsg r) d := by
  refine ⟨"Received error response from Telegram API"
      ++ (match r.errorCode with
          | some c => " (error code " ++ toString c ++ ")"
          | none => "") ++ ": ", "", ?_⟩
  simp [respMsg, hd, str_append_assoc, str_append_empty]

theorem respMsg_base_prefix (r : ApiResponse) :
    ∃ rest, respMsg r = "Received error response from Telegram API" ++ rest := by
  refine ⟨(match r.errorCode with
            | some c => " (error code " ++ toString c ++ ")"
            | none => "")
      ++ (match r.desc with | some d => ": " ++ d | none => ""), ?_⟩
  simp [respMsg, str_append_assoc]

/-! ## Helper lemmas: format-string processing with zero operands -/

theorem skipFlags_suffix (l : List Char) : skipFlags l <:+ l := by
  induction l with
  | nil => exact List.suffix_rfl
  | cons c rest ih =>
    show (if isFmtFlag c then skipFlags rest else c :: rest) <:+ c :: rest
    split
    · exact ih.trans (List.suffix_cons c rest)
    · exact List.suffix_rfl

theorem parsenumGo_suffix (l : List Char) :
    ∀ (num : Nat) (isnum : Bool), (parsenumGo num isnum l).2 <:+ l := by
  induction l with
  | nil => intro num isnum; exact List.suffix_rfl
  | cons c rest ih =>
    intro num isnum
    show (if c.isDigit then
            if num > 1000000 then ((false : Bool), ([] : List Char))
            else parsenumGo (num * 10 + (c.toNat - 48)) true rest
          else (isnum, c :: rest)).2 <:+ c :: rest
    split
    · split
      · exact List.nil_suffix
      · exact (ih _ _).trans (List.suffix_cons c rest)
    · exact List.suffix_rfl

theorem argNumberGo_suffix (l : List Char) : (argNumberGo l).2.2 <:+ l := by
  cases l with
  | nil => exact List.suffix_rfl
  | cons c r =>
    simp only [argNumberGo]
    split
    · split
      · exact List.suffix_cons c r
      · split
        · exact List.suffix_cons c r
        · exact (List.drop_suffix _ _).trans (List.suffix_cons c r)
    · exact List.suffix_rfl

theorem fmtWidth_suffix (l : List Char) (after : Bool) : (fmtWidth l after).2.1 <:+ l := by
  cases l with
  | nil => exact List.suffix_rfl
  | cons c r =>
    simp only [fmtWidth]
    split
    · rename_i heq
      rw [List.cons.injEq] at heq
      exact heq.2 ▸ List.suffix_cons c r
    · exact parsenumGo_suffix _ _ _

theorem fmtPrec_suffix (l : List Char) (after : Bool) : (fmtPrec l after).2.1 <:+ l := by
  cases l with
  | nil => exact List.suffix_rfl
  | cons c0 r0 =>
    cases r0 with
    | nil =>
      simp only [fmtPrec]
      exact List.suffix_rfl
    | cons c r =>
      simp only [fmtPrec]
      split
      · rename_i heq
        rw [List.cons.injEq] at heq
        obtain ⟨h0, hcr⟩ := heq
        rw [List.cons.injEq] at hcr
        obtain ⟨hc, hr⟩ := hcr
        subst h0
        subst hc
        subst hr
        have hsuf : (argNumberGo (c :: r)).2.2 <:+ '.' :: c :: r :=
          (argNumberGo_suffix (c :: r)).trans
            ((List.suffix_cons '.' (c :: r)))
        split
        · rename_i heq2
          exact (heq2 ▸ List.suffix_cons '*' _).trans hsuf
        · exact ((parsenumGo_suffix _ _ _).trans List.suffix_rfl).trans hsuf
      · exact List.suffix_rfl

theorem fmtVerb_suffix (l w p : List Char) (bad : Bool) : (fmtVerb l w p bad).2 <:+ l := by
  cases l with
  | nil => exact List.suffix_rfl
  | cons v r =>
    show (if v = '%' then (w ++ p ++ ['%'], r)
          else if bad then (w ++ p ++ ('%' :: '!' :: v :: "(BADINDEX)".data), r)
          else (w ++ p ++ ('%' :: '!' :: v :: "(MISSING)".data), r)).2 <:+ v :: r
    split
    · exact List.suffix_cons v r
    · split
      · exact List.suffix_cons v r
      · exact List.suffix_cons v r

/-- A directive only ever consumes characters: the remaining format is a
suffix of the input, so `doPrintfFuel`'s fuel `length + 1` never runs out. -/
theorem fmtDirective_suffix (l : List Char) : (fmtDirective l).2 <:+ l := by
  have h1 : skipFlags l <:+ l := skipFlags_suffix l
  have h2 : (argNumberGo (skipFlags l)).2.2 <:+ l := (argNumberGo_suffix _).trans h1
  have h3 : (fmtWidth (argNumberGo (skipFlags l)).2.2 (argNumberGo (skipFlags l)).2.1).2.1 <:+ l :=
    (fmtWidth_suffix _ _).trans h2
  have h4 := (fmtPrec_suffix
    (fmtWidth (argNumberGo (skipFlags l)).2.2 (argNumberGo (skipFlags l)).2.1).2.1
    (fmtWidth (argNumberGo (skipFlags l)).2.2 (argNumberGo (skipFlags l)).2.1).2.2).trans h3
  show (fmtVerb _ _ _ _).2 <:+ l
  refine (fmtVerb_suffix _ _ _ _).trans ?_
  split
  · exact h4
  · exact (argNumberGo_suffix _).trans h4

theorem doPrintfFuel_cons_ne (fuel : Nat) (c : Char) (l : List Char) (hc : c ≠ '%') :
    doPrintfFuel (fuel + 1) (c :: l) = c :: doPrintfFuel fuel l := by
  show (if c = '%' then (fmtDirective l).1 ++ doPrintfFuel fuel (fmtDirective l).2
        else c :: doPrintfFuel fuel l) = c :: doPrintfFuel fuel l
  rw [if_neg hc]

/-- A format free of `%` is passed through unchanged. -/
theorem doPrintfFuel_no_percent (fuel : Nat) :
    ∀ l : List Char, l.length < fuel → '%' ∉ l → doPrintfFuel fuel l = l := by
  induction fuel with
  | zero => intro l hl _; exact absurd hl (Nat.not_lt_zero _)
  | succ fuel ih =>
    intro l hl hp
    cases l with
    | nil => rfl
    | cons c rest =>
      have hc : c ≠ '%' := fun h => hp (h ▸ List.mem_cons_self c rest)
      rw [doPrintfFuel_cons_ne fuel c rest hc,
        ih rest (by simp only [List.length_cons] at hl; omega)
          (fun h => hp (List.mem_cons_of_mem _ h))]

/-- A `%`-free prefix of the format is passed through unchanged. -/
theorem doPrintfFuel_append (a : List Char) :
    ∀ (fuel : Nat) (b : List Char), '%' ∉ a →
      doPrintfFuel (a.length + fuel) (a ++ b) = a ++ doPrintfFuel fuel b := by
  induction a with
  | nil => intro fuel b _; simp
  | cons c a2 ih =>
    intro fuel b hp
    have hc : c ≠ '%' := fun h => hp (h ▸ List.mem_cons_self c a2)
    have hp2 : '%' ∉ a2 := fun h => hp (List.mem_cons_of_mem _ h)
    have harith : (c :: a2).length + fuel = (a2.length + fuel) + 1 := by
      simp only [List.length_cons]
      omega
    rw [List.cons_append, harith, doPrintfFuel_cons_ne _ c _ hc, ih fuel b hp2]
    rfl

theorem fmtErrorf_no_percent (s : String) (hp : '%' ∉ s.data) : fmtErrorf s = s :=
  String.ext (doPrintfFuel_no_percent _ s.data (Nat.lt_succ_self _) hp)

theorem fmtErrorf_append (x y : String) (hp : '%' ∉ x.data) :
    fmtErrorf (x ++ y) = x ++ fmtErrorf y := by
  apply String.ext
  have key := doPrintfFuel_append x.data (y.data.length + 1) y.data hp
  calc (fmtErrorf (x ++ y)).data
      = doPrintfFuel ((x ++ y).data.length + 1) (x ++ y).data := rfl
    _ = doPrintfFuel ((x.data ++ y.data).length + 1) (x.data ++ y.data) := by
        rw [String.data_append]
    _ = doPrintfFuel (x.data.length + (y.data.length + 1)) (x.data ++ y.data) := by
        rw [show (x.data ++ y.data).length + 1 = x.data.length + (y.data.length + 1) by
          simp only [List.length_append]
          omega]
    _ = x.data ++ doPrintfFuel (y.data.length + 1) y.data := key
    _ = (x ++ fmtErrorf y).data := by
        rw [String.data_append]
        rfl

theorem digitChar_ne_percent (m : Nat) (h : m < 16) : Nat.digitChar m ≠ '%' := by
  interval_cases m <;> decide

theorem toDigitsCore_no_percent (fuel : Nat) :
    ∀ (n : Nat) (ds : List Char), '%' ∉ ds → '%' ∉ Nat.toDigitsCore 10 fuel n ds := by
  induction fuel with
  | zero => intro n ds hds; simpa [Nat.toDigitsCore] using hds
  | succ fuel ih =>
    intro n ds hds
    have hd : '%' ∉ Nat.digitChar (n % 10) :: ds := by
      intro hmem
      rcases List.mem_cons.mp hmem with h | h
      · exact digitChar_ne_percent (n % 10) (by omega) h.symm
      · exact hds h
    show '%' ∉ (if n / 10 = 0 then Nat.digitChar (n % 10) :: ds
                else Nat.toDigitsCore 10 fuel (n / 10) (Nat.digitChar (n % 10) :: ds))
    split
    · exact hd
    · exact ih _ _ hd

theorem repr_no_percent (n : Nat) : '%' ∉ (Nat.repr n).data :=
  toDigitsCore_no_percent (n + 1) n [] (by simp)

/-- The decimal rendering of an error code never contains a `%`. -/
theorem toString_int_no_percent (c : Int) : '%' ∉ (toString c).data := by
  cases c with
  | ofNat m => exact repr_no_percent m
  | negSucc m =>
    show '%' ∉ ("-" ++ Nat.repr (m + 1)).data
    rw [String.data_append]
    intro hmem
    rcases List.mem_append.mp hmem with h | h
    · exact absurd h (by decide)
    · exact repr_no_percent (m + 1) h

/-- The fixed text and the error-code segment of the composed message are
`%`-free, so `fmt.Errorf` passes them through unchanged. -/
theorem base_code_no_percent (c : Int) :
    '%' ∉ ("Received error response from Telegram API"
      ++ (" (error code " ++ toString c ++ ")")).data := by
  intro hmem
  simp only [String.data_append, List.mem_append] at hmem
  rcases hmem with h | (h | h) | h
  · exact absurd h (by decide)
  · exact absurd h (by decide)
  · exact toString_int_no_percent c h
  · exact absurd h (by decide)

/-- When the description is `%`-free, the whole composed message is. -/
theorem respMsg_no_percent (r : ApiResponse) (d : String) (hd : r.desc = some d)
    (hpd : '%' ∉ d.data) : '%' ∉ (respMsg r).data := by
  intro hmem
  simp only [respMsg, hd, String.data_append, List.mem_append] at hmem
  rcases hmem with (h | h) | h | h
  · exact absurd h (by decide)
  · cases hre : r.errorCode with
    | none =>
      rw [hre] at h
      exact absurd h (by decide)
    | some c =>
      rw [hre] at h
      simp only [String.data_append, List.mem_append] at h
      rcases h with (h | h) | h
      · exact absurd h (by decide)
      · exact toString_int_no_percent c h
      · exact absurd h (by decide)
  · exact absurd h (by decide)
  · exact hpd h

/-- Substring containment coincides with list-infix on the character data,
giving decidability on concrete strings. -/
theorem containsStr_data_iff (s sub : String) :
    ContainsStr s sub ↔ sub.data <:+: s.data := by
  constructor
  · rintro ⟨p, q, rfl⟩
    exact ⟨p.data, q.data, by simp [String.data_append, List.append_assoc]⟩
  · rintro ⟨l, r, h⟩
    refine ⟨⟨l⟩, ⟨r⟩, ?_⟩
    apply String.ext
    simp only [String.data_append]
    exact h.symm

/-- The membership criterion actually implemented by the
`AllLevels[:h.level+1]` slice: a severity is enabled iff it is at least as
severe as the threshold (i.e. at or ABOVE it on the ascending-severity
ordinal). -/
theorem levelsFor_mem_iff :
    ∀ s t : Level, s ∈ levelsFor t ↔ ascSeverityRank t ≤ ascSeverityRank s := by
  decide

/-! ## Claims -/

/-- C1 (counterexample): the claim "the hook accepts S iff S is at or below
the threshold T on the ascending-severity order, i.e. Levels() is the
severities from trace up to T" is false on the code: `trace` is at or below
`error` on the ascending-severity ordinal, yet with threshold `error` the
slice `AllLevels[:level+1]` does NOT contain `trace`. -/
theorem C1_counterexample :
    ascSeverityRank .trace ≤ ascSeverityRank .error ∧
    Level.trace ∉ levelsFor .error := by
  decide

/-- C1 (amended): the level filter accepts a severity S iff S is at or ABOVE
the configured threshold on the ascending-severity ordinal (S at least as
severe as the threshold): `Levels()` is the prefix of the framework's
enumeration `[panic, fatal, …]` down to and including the threshold. -/
theorem C1_levels_filter (h : HookState) (s : Level) :
    s ∈ Levels h ↔ ascSeverityRank h.level ≤ ascSeverityRank s :=
  levelsFor_mem_iff s h.level

/-- C5: in asynchronous mode `Fire` returns success (`nil`) for every
transport outcome, including network failures, decode failures and
`ok = false` responses; no error from the detached send reaches the caller. -/
theorem C5_async_fire_returns_nil (h : HookState) (e : Entry)
    (tr : TransportResult) (ha : h.async = true) :
    (FireModel h e tr).1 = none := by
  simp [FireModel, ha]

/-- C5 (witness): a concrete async hook and a failing transport. -/
theorem C5_async_fire_returns_nil_witness :
    ({ appName := "a", authToken := "t", chatId := "c", threadId := "",
       level := .error, async := true, clientTimeout := 0 } : HookState).async = true ∧
    (FireModel
      { appName := "a", authToken := "t", chatId := "c", threadId := "",
        level := .error, async := true, clientTimeout := 0 }
      ⟨.error, "m", []⟩ (.netErr "connection refused")).1 = none :=
  ⟨rfl, C5_async_fire_returns_nil _ ⟨.error, "m", []⟩ (.netErr "connection refused") rfl⟩

/-- C8: the severity switch has no default case, so `trace` (the only
severity without an explicit case) yields the empty label and the formatted
message begins with `@<appName> - <message>`. -/
theorem C8_trace_empty_label :
    levelLabel .trace = "" ∧
    ∀ (appName : String) (e : Entry), e.level = .trace →
      ∃ rest, createMessage appName e = "@" ++ appName ++ " - " ++ e.message ++ rest := by
  refine ⟨rfl, ?_⟩
  intro appName e he
  obtain ⟨rest, hr⟩ := createMessage_prefix appName e
  refine ⟨rest, ?_⟩
  rw [hr, he]
  rw [show levelLabel .trace = "" from rfl, str_empty_append]

/-- C8 (witness): a concrete trace-level entry. -/
theorem C8_trace_empty_label_witness :
    (⟨.trace, "m", []⟩ : Entry).level = .trace ∧
    ∃ rest, createMessage "svc" ⟨.trace, "m", []⟩ = "@" ++ "svc" ++ " - " ++ "m" ++ rest :=
  ⟨rfl, C8_trace_empty_label.2 "svc" ⟨.trace, "m", []⟩ rfl⟩

/-- C10: a hook constructed with no options (and a successful identity
check) has threshold `ErrorLevel`, synchronous delivery, and
`Levels() = [panic, fatal, error]`. -/
theorem C10_default_configuration (an tok ci ti : String) (r : ApiResponse)
    (hok : r.ok = true) :
    ∃ h, newTelegramHookWithClient an tok ci ti [] (.response r) = .ok h ∧
      h.level = .error ∧ h.async = false ∧ Levels h = [.panic, .fatal, .error] := by
  refine ⟨{ appName := an, authToken := tok, chatId := ci, threadId := ti,
            level := .error, async := false, clientTimeout := 0 }, ?_, rfl, rfl, rfl⟩
  simp [newTelegramHookWithClient, verifyTokenModel, hok]

/-- C10 (witness): concrete construction with a successful response. -/
theorem C10_default_configuration_witness :
    (⟨true, none, none⟩ : ApiResponse).ok = true ∧
    ∃ h, newTelegramHookWithClient "svc" "tok" "chat" "" [] (.response ⟨true, none, none⟩)
        = .ok h ∧ h.level = .error ∧ h.async = false ∧
        Levels h = [.panic, .fatal, .error] :=
  ⟨rfl, C10_default_configuration "svc" "tok" "chat" "" ⟨true, none, none⟩ rfl⟩

/-- C2 (counterexample): the formatter is NOT byte-deterministic in the field
mapping alone once an event carries two or more fields: `entry.Data` is a Go
map, whose iteration order is unspecified, and two iteration orders of the
same two-field mapping produce different output strings. -/
theorem C2_counterexample :
    ([("a", GoValue.str "x"), ("b", GoValue.str "y")] :
        List (String × GoValue)).Perm [("b", GoValue.str "y"), ("a", GoValue.str "x")] ∧
    ("a" : String) ≠ "b" ∧
    createMessage "app" ⟨.info, "m", [("a", GoValue.str "x"), ("b", GoValue.str "y")]⟩
      ≠ createMessage "app" ⟨.info, "m", [("b", GoValue.str "y"), ("a", GoValue.str "x")]⟩ :=
  ⟨List.Perm.swap _ _ _, by decide, by decide⟩

/-- C2 (amended): `createMessage` is a pure function of severity, message,
application name and the field pairs in the order map iteration yields them;
identical events are guaranteed byte-identical output only when the event
carries at most one field (where the iteration order is determined by the
mapping). -/
theorem C2_formatter_determinism :
    ∀ (appName : String) (lvl : Level) (msg : String)
      (d1 d2 : List (String × GoValue)),
      d1.Perm d2 → d1.length ≤ 1 →
      createMessage appName ⟨lvl, msg, d1⟩ = createMessage appName ⟨lvl, msg, d2⟩ := by
  intro appName lvl msg d1 d2 hp hl
  have hd : d1 = d2 := by
    cases d1 with
    | nil => exact (hp.symm.eq_nil).symm
    | cons p rest =>
      cases rest with
      | nil => exact (List.perm_singleton.mp hp.symm).symm
      | cons q rest2 => simp at hl
  rw [hd]

/-- C2 (witness): a one-field event. -/
theorem C2_formatter_determinism_witness :
    ([("k", GoValue.str "v")] : List (String × GoValue)).Perm [("k", GoValue.str "v")] ∧
    ([("k", GoValue.str "v")] : List (String × GoValue)).length ≤ 1 ∧
    createMessage "app" ⟨.info, "m", [("k", GoValue.str "v")]⟩
      = createMessage "app" ⟨.info, "m", [("k", GoValue.str "v")]⟩ :=
  ⟨List.Perm.refl _, by decide,
    C2_formatter_determinism "app" .info "m" _ _ (List.Perm.refl _) (by decide)⟩

/-- C3: for every severity with an explicit switch case the message begins
with `<b>LABEL</b>@<appName> - <message>`; and the concrete scenario
(app `"svc"`, severity `error`, message `"boom"`, fields `{"n": 1}`)
contains `"ERROR"`, `"svc"`, `"boom"` and a `<pre>` block line `"n: 1"`. -/
theorem C3_message_shape :
    (∀ (appName : String) (e : Entry),
        e.level ∈ [Level.panic, .fatal, .error, .warn, .info, .debug] →
        (∃ t, levelLabel e.level = "<b>" ++ t ++ "</b>") ∧
        (∃ rest, createMessage appName e
          = levelLabel e.level ++ "@" ++ appName ++ " - " ++ e.message ++ rest)) ∧
    ContainsStr (createMessage "svc" ⟨.error, "boom", [("n", .int 1)]⟩) "ERROR" ∧
    ContainsStr (createMessage "svc" ⟨.error, "boom", [("n", .int 1)]⟩) "svc" ∧
    ContainsStr (createMessage "svc" ⟨.error, "boom", [("n", .int 1)]⟩) "boom" ∧
    ContainsStr (createMessage "svc" ⟨.error, "boom", [("n", .int 1)]⟩) "<pre>\n\tn: 1\n</pre>" := by
  refine ⟨?_,
    ⟨"<b>", "</b>@svc - boom\n<pre>\n\tn: 1\n</pre>", by decide⟩,
    ⟨"<b>ERROR</b>@", " - boom\n<pre>\n\tn: 1\n</pre>", by decide⟩,
    ⟨"<b>ERROR</b>@svc - ", "\n<pre>\n\tn: 1\n</pre>", by decide⟩,
    ⟨"<b>ERROR</b>@svc - boom\n", "", by decide⟩⟩
  intro appName e hm
  refine ⟨?_, createMessage_prefix appName e⟩
  rcases e with ⟨lvl, msg, data⟩
  cases lvl
  case panic => exact ⟨"PANIC", rfl⟩
  case fatal => exact ⟨"FATAL", rfl⟩
  case error => exact ⟨"ERROR", rfl⟩
  case warn => exact ⟨"WARNING", rfl⟩
  case info => exact ⟨"INFO", rfl⟩
  case debug => exact ⟨"DEBUG", rfl⟩
  case trace => simp at hm

/-- C3 (witness): instantiation at the scenario's own entry. -/
theorem C3_message_shape_witness :
    (⟨.error, "boom", [("n", GoValue.int 1)]⟩ : Entry).level
        ∈ [Level.panic, .fatal, .error, .warn, .info, .debug] ∧
    ((∃ t, levelLabel (⟨.error, "boom", [("n", GoValue.int 1)]⟩ : Entry).level
        = "<b>" ++ t ++ "</b>") ∧
     (∃ rest, createMessage "svc" ⟨.error, "boom", [("n", GoValue.int 1)]⟩
        = levelLabel (⟨.error, "boom", [("n", GoValue.int 1)]⟩ : Entry).level
          ++ "@" ++ "svc" ++ " - " ++ "boom" ++ rest)) :=
  ⟨by decide, C3_message_shape.1 "svc" ⟨.error, "boom", [("n", GoValue.int 1)]⟩ (by decide)⟩

/-- C4: each field's rendered `key: value` line is HTML-escaped in the block
appended by `createMessage`: the escaped line occurs in the output, contains
no raw `<` or `>`, and unescaping it yields back exactly the rendered line
(in particular every `&`, `<`, `>` of the value was escaped). -/
theorem C4_field_escaping :
    ∀ (appName : String) (e : Entry) (k : String) (v : GoValue),
      (k, v) ∈ e.data →
      ContainsStr (createMessage appName e) (fieldLine k v) ∧
      '<' ∉ (fieldLine k v).data ∧ '>' ∉ (fieldLine k v).data ∧
      unescape (fieldLine k v) = "\t" ++ k ++ ": " ++ goRender v := by
  intro appName e k v h
  exact ⟨createMessage_contains_fieldLine appName e k v h,
    escList_no_raw _ _ (Or.inl rfl), escList_no_raw _ _ (Or.inr rfl),
    unescape_escapeString _⟩

/-- C4 (witness): a field value containing all three special characters. -/
theorem C4_field_escaping_witness :
    ("k", GoValue.str "a&b<c>") ∈ (⟨.error, "m", [("k", GoValue.str "a&b<c>")]⟩ : Entry).data ∧
    (ContainsStr (createMessage "svc" ⟨.error, "m", [("k", GoValue.str "a&b<c>")]⟩)
        (fieldLine "k" (GoValue.str "a&b<c>")) ∧
     '<' ∉ (fieldLine "k" (GoValue.str "a&b<c>")).data ∧
     '>' ∉ (fieldLine "k" (GoValue.str "a&b<c>")).data ∧
     unescape (fieldLine "k" (GoValue.str "a&b<c>"))
        = "\t" ++ "k" ++ ": " ++ goRender (GoValue.str "a&b<c>")) :=
  ⟨by decide,
    C4_field_escaping "svc" ⟨.error, "m", [("k", GoValue.str "a&b<c>")]⟩ "k"
      (GoValue.str "a&b<c>") (by decide)⟩

/-- C6 (counterexample): the claim "the returned error contains the
response's description when present" is false: `sendMessage` returns
`fmt.Errorf(msg)`, passing the composed message as a printf FORMAT string
with no operands, so a remote description `"%d"` is mangled to
`"%!d(MISSING)"` — the returned error is not the composed message and does
not contain the description. -/
theorem C6_counterexample :
    respMsg ⟨false, none, some "%d"⟩ = "Received error response from Telegram API: %d" ∧
    (FireModel
      { appName := "a", authToken := "t", chatId := "c", threadId := "",
        level := .error, async := false, clientTimeout := 0 }
      ⟨.error, "m", []⟩ (.response ⟨false, none, some "%d"⟩)).1
      = some "Received error response from Telegram API: %!d(MISSING)" ∧
    ¬ContainsStr "Received error response from Telegram API: %!d(MISSING)" "%d" := by
  refine ⟨by decide, by decide, ?_⟩
  rw [containsStr_data_iff]
  decide

/-- C6 (amended): in synchronous mode an `ok = false` response makes `Fire`
return a non-nil error — the composed message as processed by
`fmt.Errorf` with no operands — and write the `"Unable to send message"`
diagnostic to the process's error stream; the error contains the response's
error code whenever present, and the description whenever it is present and
free of `%` (a description with `%`-verbs is mangled, see the
counterexample). -/
theorem C6_sync_failure_surfaced :
    ∀ (h : HookState) (e : Entry) (r : ApiResponse),
      h.async = false → r.ok = false →
      (FireModel h e (.response r)).1 = some (fmtErrorf (respMsg r)) ∧
      (FireModel h e (.response r)).2
        = ["Unable to send message, " ++ fmtErrorf (respMsg r)] ∧
      (∀ c, r.errorCode = some c →
        ContainsStr (fmtErrorf (respMsg r)) (" (error code " ++ toString c ++ ")")) ∧
      (∀ d, r.desc = some d → '%' ∉ d.data →
        ContainsStr (fmtErrorf (respMsg r)) d) := by
  intro h e r ha hok
  refine ⟨?_, ?_, ?_, ?_⟩
  · simp [FireModel, sendMessageModel, ha, hok]
  · simp [FireModel, sendMessageModel, ha, hok]
  · intro c hc
    have hm : respMsg r
        = ("Received error response from Telegram API"
            ++ (" (error code " ++ toString c ++ ")"))
          ++ (match r.desc with | some d => ": " ++ d | none => "") := by
      simp [respMsg, hc]
    rw [hm, fmtErrorf_append _ _ (base_code_no_percent c)]
    exact ⟨"Received error response from Telegram API",
      fmtErrorf (match r.desc with | some d => ": " ++ d | none => ""), rfl⟩
  · intro d hd hpd
    rw [fmtErrorf_no_percent _ (respMsg_no_percent r d hd hpd)]
    exact respMsg_contains_desc r d hd

/-- C6 (witness): a sync hook and a simulated `401 Unauthorized` response
(whose description is `%`-free). -/
theorem C6_sync_failure_surfaced_witness :
    ({ appName := "a", authToken := "t", chatId := "c", threadId := "",
       level := .error, async := false, clientTimeout := 0 } : HookState).async = false ∧
    (⟨false, some 401, some "Unauthorized"⟩ : ApiResponse).ok = false ∧
    ((FireModel
        { appName := "a", authToken := "t", chatId := "c", threadId := "",
          level := .error, async := false, clientTimeout := 0 }
        ⟨.error, "m", []⟩
        (.response ⟨false, some 401, some "Unauthorized"⟩)).1
      = some (fmtErrorf (respMsg ⟨false, some 401, some "Unauthorized"⟩)) ∧
     (FireModel
        { appName := "a", authToken := "t", chatId := "c", threadId := "",
          level := .error, async := false, clientTimeout := 0 }
        ⟨.error, "m", []⟩
        (.response ⟨false, some 401, some "Unauthorized"⟩)).2
      = ["Unable to send message, "
          ++ fmtErrorf (respMsg ⟨false, some 401, some "Unauthorized"⟩)] ∧
     (∀ c, (⟨false, some 401, some "Unauthorized"⟩ : ApiResponse).errorCode = some c →
       ContainsStr (fmtErrorf (respMsg ⟨false, some 401, some "Unauthorized"⟩))
         (" (error code " ++ toString c ++ ")")) ∧
     (∀ d, (⟨false, some 401, some "Unauthorized"⟩ : ApiResponse).desc = some d →
       '%' ∉ d.data →
       ContainsStr (fmtErrorf (respMsg ⟨false, some 401, some "Unauthorized"⟩)) d)) :=
  ⟨rfl, rfl,
    C6_sync_failure_surfaced
      { appName := "a", authToken := "t", chatId := "c", threadId := "",
        level := .error, async := false, clientTimeout := 0 }
      ⟨.error, "m", []⟩ ⟨false, some 401, some "Unauthorized"⟩ rfl rfl⟩

/-- C7: construction is fail-fast: any `verifyToken` failure (network error,
decode error, or `ok = false` response) is returned and no hook value is
produced; on an `ok = false` response the error carries the remote error
code and description when present, and always begins with the fixed
well-formed base text. -/
theorem C7_construction_failfast :
    ∀ (an tok ci ti : String) (opts : List HookOpt) (tr : TransportResult),
      (∀ err, verifyTokenModel
          (opts.foldl (fun acc o => o acc)
            { appName := an, authToken := tok, chatId := ci, threadId := ti,
              level := .error, async := false, clientTimeout := 0 }) tr = .error err →
        newTelegramHookWithClient an tok ci ti opts tr = .error err) ∧
      (∀ cause, tr = .netErr cause →
        ∃ err, newTelegramHookWithClient an tok ci ti opts tr = .error err) ∧
      (∀ cause, tr = .decodeErr cause →
        ∃ err, newTelegramHookWithClient an tok ci ti opts tr = .error err) ∧
      (∀ r, tr = .response r → r.ok = false →
        ∃ err, newTelegramHookWithClient an tok ci ti opts tr = .error err ∧
          (∀ c, r.errorCode = some c →
            ContainsStr err (" (error code " ++ toString c ++ ")")) ∧
          (∀ d, r.desc = some d → ContainsStr err d) ∧
          (∃ rest, err = "Received error response from Telegram API" ++ rest)) := by
  intro an tok ci ti opts tr
  refine ⟨?_, ?_, ?_, ?_⟩
  · intro err hv
    simp only [newTelegramHookWithClient]
    rw [hv]
  · intro cause htr
    subst htr
    exact ⟨_, rfl⟩
  · intro cause htr
    subst htr
    exact ⟨_, rfl⟩
  · intro r htr hok
    subst htr
    refine ⟨respMsg r ++ "\n" ++ marshalIndent r, ?_, ?_, ?_, ?_⟩
    · simp [newTelegramHookWithClient, verifyTokenModel, hok]
    · intro c hc
      exact containsStr_append_right _
        (containsStr_append_right _ (respMsg_contains_code r c hc))
    · intro d hd
      exact containsStr_append_right _
        (containsStr_append_right _ (respMsg_contains_desc r d hd))
    · obtain ⟨rest, hr⟩ := respMsg_base_prefix r
      refine ⟨rest ++ "\n" ++ marshalIndent r, ?_⟩
      rw [hr]
      simp only [str_append_assoc]

/-- C7 (witness): construction against a simulated `401` rejection. -/
theorem C7_construction_failfast_witness :
    ((.response ⟨false, some 401, some "Unauthorized"⟩ : TransportResult)
        = .response ⟨false, some 401, some "Unauthorized"⟩) ∧
    (⟨false, some 401, some "Unauthorized"⟩ : ApiResponse).ok = false ∧
    ∃ err, newTelegramHookWithClient "a" "t" "c" "" []
        (.response ⟨false, some 401, some "Unauthorized"⟩) = .error err ∧
      (∀ c, (⟨false, some 401, some "Unauthorized"⟩ : ApiResponse).errorCode = some c →
        ContainsStr err (" (error code " ++ toString c ++ ")")) ∧
      (∀ d, (⟨false, some 401, some "Unauthorized"⟩ : ApiResponse).desc = some d →
        ContainsStr err d) ∧
      (∃ rest, err = "Received error response from Telegram API" ++ rest) :=
  ⟨rfl, rfl,
    (C7_construction_failfast "a" "t" "c" "" []
        (.response ⟨false, some 401, some "Unauthorized"⟩)).2.2.2
      ⟨false, some 401, some "Unauthorized"⟩ rfl rfl⟩

/-- C9 (counterexample): the claim "the credential never appears in a
returned error or in the stderr diagnostic" is false: a network-level
failure is reported through Go's `*url.Error`, whose text embeds the full
request URL and hence the bot token — here `verifyToken` returns it, and
`sendMessage` both returns it and writes it to stderr. -/
theorem C9_counterexample :
    verifyTokenModel
      { appName := "app", authToken := "SECRET", chatId := "c", threadId := "",
        level := .error, async := false, clientTimeout := 0 }
      (.netErr "connection refused")
      = .error "Get \"https://api.telegram.org/botSECRET/getMe\": connection refused" ∧
    ContainsStr "Get \"https://api.telegram.org/botSECRET/getMe\": connection refused"
      "SECRET" ∧
    (sendMessageModel
      { appName := "app", authToken := "SECRET", chatId := "c", threadId := "",
        level := .error, async := false, clientTimeout := 0 }
      "m" (.netErr "connection refused")).2.2
      = ["Encountered error when issuing request to Telegram API, Post \"https://api.telegram.org/botSECRET/sendMessage\": connection refused"] ∧
    ContainsStr
      "Encountered error when issuing request to Telegram API, Post \"https://api.telegram.org/botSECRET/sendMessage\": connection refused"
      "SECRET" := by
  refine ⟨rfl, ⟨"Get \"https://api.telegram.org/bot", "/getMe\": connection refused", ?_⟩,
    rfl, ⟨"Encountered error when issuing request to Telegram API, Post \"https://api.telegram.org/bot",
      "/sendMessage\": connection refused", ?_⟩⟩
  · decide
  · decide

/-- C9 (amended): only the errors the hook composes itself from an
`ok = false` endpoint response are credential-free — they are functions of
the response alone, independent of the configured credential (and of the
message text); network-level failures, by contrast, embed the request URL
and with it the credential (see the counterexample). -/
theorem C9_endpoint_failure_credential_independent :
    ∀ (h1 h2 : HookState) (m1 m2 : String) (r : ApiResponse),
      r.ok = false →
      (sendMessageModel h1 m1 (.response r)).2 = (sendMessageModel h2 m2 (.response r)).2 ∧
      verifyTokenModel h1 (.response r) = verifyTokenModel h2 (.response r) := by
  intro h1 h2 m1 m2 r hok
  constructor <;> simp [sendMessageModel, verifyTokenModel, hok]

/-- C9 (witness): two hooks with different credentials observing the same
rejected send. -/
theorem C9_endpoint_failure_credential_independent_witness :
    (⟨false, some 401, some "bad token"⟩ : ApiResponse).ok = false ∧
    ((sendMessageModel
        { appName := "a", authToken := "SECRET1", chatId := "c", threadId := "",
          level := .error, async := false, clientTimeout := 0 } "m"
        (.response ⟨false, some 401, some "bad token"⟩)).2
      = (sendMessageModel
        { appName := "a", authToken := "SECRET2", chatId := "c", threadId := "",
          level := .error, async := false, clientTimeout := 0 } "n"
        (.response ⟨false, some 401, some "bad token"⟩)).2 ∧
     verifyTokenModel
        { appName := "a", authToken := "SECRET1", chatId := "c", threadId := "",
          level := .error, async := false, clientTimeout := 0 }
        (.response ⟨false, some 401, some "bad token"⟩)
      = verifyTokenModel
        { appName := "a", authToken := "SECRET2", chatId := "c", threadId := "",
          level := .error, async := false, clientTimeout := 0 }
        (.response ⟨false, some 401, some "bad token"⟩)) :=
  ⟨rfl,
    C9_endpoint_failure_credential_independent
      { appName := "a", authToken := "SECRET1", chatId := "c", threadId := "",
        level := .error, async := false, clientTimeout := 0 }
      { appName := "a", authToken := "SECRET2", chatId := "c", threadId := "",
        level := .error, async := false, clientTimeout := 0 }
      "m" "n" ⟨false, some 401, some "bad token"⟩ rfl⟩
